import Mathlib

/-!
Shallow embedding of the moderation/ACL store of the relay (`database.go`).

Each Postgres table becomes a Lean list; for tables whose rows carry a
`created_at` timestamp the list order models insertion order (ascending
creation time).  Each SQL statement becomes a pure function on that list:

* `INSERT ... ON CONFLICT DO NOTHING`  → `upsertIgnore`
* `INSERT ... ON CONFLICT DO UPDATE`   → `upsertUpdate`
* `DELETE ... WHERE key = $1`          → `deleteKey`
* `SELECT ... WHERE key = $1`          → `lookupKey`

An `sql.Tx` (Begin / statements / Commit, with `defer tx.Rollback()`) is
modelled by `runTx`: the statements are applied in order to a
transaction-local state; a failure schedule `failAt` says which statement
(0-based), if any, fails.  On failure the committed state is the state from
before the transaction (ROLLBACK), on success it is the transaction-local
result (COMMIT).  `failAt = some n` with `n` equal to the number of
statements models a Commit failure.

Every mutating operation returns `Option String × DBState`: the error
message (as produced by the Go code, `none` on success) together with the
database state visible after the call.
-/

/-- First row of `rows` whose key is `k` (`SELECT ... WHERE key = $1`). -/
def lookupKey {α : Type} (rows : List (String × α)) (k : String) : Option α :=
  match rows with
  | [] => none
  | (k2, v) :: rest => if k2 = k then some v else lookupKey rest k

/-- `SELECT EXISTS(SELECT 1 ... WHERE key = $1)`. -/
def hasKey {α : Type} (rows : List (String × α)) (k : String) : Bool :=
  (lookupKey rows k).isSome

/-- `DELETE FROM ... WHERE key = $1`. -/
def deleteKey {α : Type} (rows : List (String × α)) (k : String) :
    List (String × α) :=
  rows.filter (fun row => row.1 != k)

/-- `INSERT ... VALUES (k, v) ON CONFLICT DO NOTHING`.  A fresh row gets the
newest `created_at`, hence is appended at the end. -/
def upsertIgnore {α : Type} (rows : List (String × α)) (k : String) (v : α) :
    List (String × α) :=
  if hasKey rows k then rows else rows ++ [(k, v)]

/-- `INSERT ... VALUES (k, v) ON CONFLICT DO UPDATE SET val = v`.  Updating
keeps the row's `created_at`, hence its position. -/
def upsertUpdate {α : Type} (rows : List (String × α)) (k : String) (v : α) :
    List (String × α) :=
  if hasKey rows k then rows.map (fun row => if row.1 = k then (k, v) else row)
  else rows ++ [(k, v)]

/-- `INSERT INTO ..._kinds (kind) VALUES (k) ON CONFLICT DO NOTHING`. -/
def insertKind (rows : List Int) (k : Int) : List Int :=
  if k ∈ rows then rows else rows ++ [k]

/-- `DELETE FROM ..._kinds WHERE kind = $1`. -/
def deleteKind (rows : List Int) (k : Int) : List Int :=
  rows.filter (fun k2 => k2 != k)

/-- The ten tables created by `initTables`. -/
structure DBState where
  allowed_pubkeys : List (String × String)
  banned_pubkeys : List (String × String)
  events_needing_moderation : List (String × String)
  allowed_events : List (String × String)
  banned_events : List (String × String)
  allowed_kinds : List Int
  disallowed_kinds : List Int
  blocked_ips : List (String × String)
  admins : List (String × List String)
  relay_info : List (String × String)
deriving DecidableEq, Repr

/-- The state of a freshly created database (all tables empty). -/
def initState : DBState :=
  ⟨[], [], [], [], [], [], [], [], [], []⟩

/-- Run the statements of a transaction on a transaction-local state.
`idx` is the 0-based index of the next statement; the statement whose index
equals the failure schedule fails, aborting the transaction (`none`). -/
def runStmts (failAt : Option Nat) :
    List (DBState → DBState) → Nat → DBState → Option DBState
  | [], _, st => some st
  | f :: rest, idx, st =>
    if failAt = some idx then none
    else runStmts failAt rest (idx + 1) (f st)

/-- `db.Begin()` / statements / `tx.Commit()` with `defer tx.Rollback()`:
on any failure the pre-transaction state is what remains committed. -/
def runTx (st : DBState) (steps : List (DBState → DBState))
    (failAt : Option Nat) : Option String × DBState :=
  match runStmts failAt steps 0 st with
  | none => (some "transaction aborted", st)
  | some st2 =>
    if failAt = some steps.length then (some "commit failed", st) else (none, st2)

/-- `AddAllowedPubkey` (database.go): guard against empty pubkey, then
insert-ignore into `allowed_pubkeys`. -/
def AddAllowedPubkey (st : DBState) (pubkey reason : String) :
    Option String × DBState :=
  if pubkey = "" then (some "pubkey cannot be empty", st)
  else
    (none,
      { st with allowed_pubkeys := upsertIgnore st.allowed_pubkeys pubkey reason })

/-- `RemoveAllowedPubkey` (database.go): guard against empty pubkey, delete
from `allowed_pubkeys`, and report an error when zero rows were affected. -/
def RemoveAllowedPubkey (st : DBState) (pubkey : String) :
    Option String × DBState :=
  if pubkey = "" then (some "pubkey cannot be empty", st)
  else
    let st2 := { st with allowed_pubkeys := deleteKey st.allowed_pubkeys pubkey }
    if (st.allowed_pubkeys.filter (fun row => row.1 == pubkey)).length = 0 then
      (some ("pubkey " ++ pubkey ++ " not found in allowed list"), st2)
    else (none, st2)

/-- `BanPubKey` (database.go): guard against empty pubkey, then
insert-or-update into `banned_pubkeys` (reason refreshed on conflict). -/
def BanPubKey (st : DBState) (pubkey reason : String) :
    Option String × DBState :=
  if pubkey = "" then (some "pubkey cannot be empty", st)
  else
    (none,
      { st with banned_pubkeys := upsertUpdate st.banned_pubkeys pubkey reason })

/-- `AddEventNeedingModeration` (database.go): guard against empty id, then
insert-ignore into `events_needing_moderation`. -/
def AddEventNeedingModeration (st : DBState) (id reason : String) :
    Option String × DBState :=
  if id = "" then (some "event id cannot be empty", st)
  else
    (none,
      { st with
          events_needing_moderation :=
            upsertIgnore st.events_needing_moderation id reason })

/-- `AllowEvent` (database.go): guard against empty id, then one transaction
with three statements — upsert-update into `allowed_events`, delete from
`events_needing_moderation`, delete from `banned_events`. -/
def AllowEvent (st : DBState) (id reason : String) (failAt : Option Nat) :
    Option String × DBState :=
  if id = "" then (some "event id cannot be empty", st)
  else
    runTx st
      [fun s => { s with allowed_events := upsertUpdate s.allowed_events id reason },
       fun s =>
         { s with
             events_needing_moderation := deleteKey s.events_needing_moderation id },
       fun s => { s with banned_events := deleteKey s.banned_events id }]
      failAt

/-- `BanEvent` (database.go): guard against empty id, then one transaction
with three statements — upsert-update into `banned_events`, delete from
`events_needing_moderation`, delete from `allowed_events`. -/
def BanEvent (st : DBState) (id reason : String) (failAt : Option Nat) :
    Option String × DBState :=
  if id = "" then (some "event id cannot be empty", st)
  else
    runTx st
      [fun s => { s with banned_events := upsertUpdate s.banned_events id reason },
       fun s =>
         { s with
             events_needing_moderation := deleteKey s.events_needing_moderation id },
       fun s => { s with allowed_events := deleteKey s.allowed_events id }]
      failAt

/-- `AllowKind` (database.go): one transaction with two statements —
insert-ignore into `allowed_kinds`, delete from `disallowed_kinds`. -/
def AllowKind (st : DBState) (kind : Int) (failAt : Option Nat) :
    Option String × DBState :=
  runTx st
    [fun s => { s with allowed_kinds := insertKind s.allowed_kinds kind },
     fun s => { s with disallowed_kinds := deleteKind s.disallowed_kinds kind }]
    failAt

/-- `DisallowKind` (database.go): one transaction with two statements —
insert-ignore into `disallowed_kinds`, delete from `allowed_kinds`. -/
def DisallowKind (st : DBState) (kind : Int) (failAt : Option Nat) :
    Option String × DBState :=
  runTx st
    [fun s => { s with disallowed_kinds := insertKind s.disallowed_kinds kind },
     fun s => { s with allowed_kinds := deleteKind s.allowed_kinds kind }]
    failAt

/-- `BlockIP` (database.go): a `nil` `net.IP` is modelled as `none`; a
non-nil address is stored by its string form (`ip.String()`). -/
def BlockIP (st : DBState) (ip : Option String) (reason : String) :
    Option String × DBState :=
  match ip with
  | none => (some "ip cannot be nil", st)
  | some s =>
    (none, { st with blocked_ips := upsertUpdate st.blocked_ips s reason })

/-- `UnblockIP` (database.go): delete from `blocked_ips`; no check of the
number of affected rows. -/
def UnblockIP (st : DBState) (ip : Option String) : Option String × DBState :=
  match ip with
  | none => (some "ip cannot be nil", st)
  | some s => (none, { st with blocked_ips := deleteKey st.blocked_ips s })

/-- `GrantAdmin` (database.go): guard against empty pubkey, then
insert-or-update into `admins` (the whole method list replaced on conflict). -/
def GrantAdmin (st : DBState) (pubkey : String) (methods : List String) :
    Option String × DBState :=
  if pubkey = "" then (some "pubkey cannot be empty", st)
  else (none, { st with admins := upsertUpdate st.admins pubkey methods })

/-- `RevokeAdmin` (database.go): empty method list deletes the whole grant;
otherwise the current methods are read, the named ones removed (the Go code
builds a `map[string]bool`, so duplicates collapse; we take the deduplicated
filter as the set's list form), and the row is deleted when the remaining
set is empty, updated otherwise.  A missing row is a silent no-op. -/
def RevokeAdmin (st : DBState) (pubkey : String) (methods : List String) :
    Option String × DBState :=
  if pubkey = "" then (some "pubkey cannot be empty", st)
  else if methods = [] then
    (none, { st with admins := deleteKey st.admins pubkey })
  else
    match lookupKey st.admins pubkey with
    | none => (none, st)
    | some currentMethods =>
      let newMethods :=
        currentMethods.dedup.filter (fun m => !(methods.contains m))
      if newMethods = [] then
        (none, { st with admins := deleteKey st.admins pubkey })
      else
        (none,
          { st with
              admins :=
                st.admins.map
                  (fun row => if row.1 = pubkey then (pubkey, newMethods) else row) })

/-- `GetAdminMethods` (database.go): `sql.ErrNoRows` becomes `none`. -/
def GetAdminMethods (st : DBState) (pubkey : String) : Option (List String) :=
  lookupKey st.admins pubkey

/-- One call of the kind-moderation interface, specialised to a fixed kind
`k`; the success path (`failAt = none`) of the transaction. -/
inductive KindOp where
  | allow
  | disallow
deriving DecidableEq, Repr

/-- Apply one kind-moderation call for kind `k` to the state. -/
def applyKindOp (k : Int) (st : DBState) (op : KindOp) : DBState :=
  match op with
  | .allow => (AllowKind st k none).2
  | .disallow => (DisallowKind st k none).2

/-- One call of the admin-management interface (success path). -/
inductive AdminOp where
  | grant (pubkey : String) (methods : List String)
  | revoke (pubkey : String) (methods : List String)
deriving DecidableEq, Repr

/-- Apply one admin-management call to the state. -/
def applyAdminOp (st : DBState) : AdminOp → DBState
  | .grant pk ms => (GrantAdmin st pk ms).2
  | .revoke pk ms => (RevokeAdmin st pk ms).2

/-- Does a `grant` call carry a non-empty method list?  (`revoke` is
unconstrained.) -/
def grantNonempty : AdminOp → Bool
  | .grant _ ms => !ms.isEmpty
  | .revoke _ _ => true

/-- Every grant row of the `admins` table has a non-empty method set. -/
def adminsNonempty (st : DBState) : Bool :=
  st.admins.all (fun row => !row.2.isEmpty)

/-! ### Association-list lemmas -/

theorem lookupKey_nil {α : Type} (k : String) :
    lookupKey ([] : List (String × α)) k = none := rfl

theorem lookupKey_append_of_none {α : Type} {l1 : List (String × α)} {k : String}
    (h : lookupKey l1 k = none) (l2 : List (String × α)) :
    lookupKey (l1 ++ l2) k = lookupKey l2 k := by
  induction l1 with
  | nil => simp
  | cons row rest ih =>
    obtain ⟨k2, v⟩ := row
    by_cases hk : k2 = k
    · simp [lookupKey, hk] at h
    · simp only [lookupKey, hk, if_false, List.cons_append] at h ⊢
      exact ih h

theorem hasKey_eq_false_iff {α : Type} {rows : List (String × α)} {k : String} :
    hasKey rows k = false ↔ lookupKey rows k = none := by
  cases h : lookupKey rows k <;> simp [hasKey, h]

theorem lookupKey_deleteKey_self {α : Type} (rows : List (String × α))
    (k : String) : lookupKey (deleteKey rows k) k = none := by
  induction rows with
  | nil => rfl
  | cons row rest ih =>
    obtain ⟨k2, v⟩ := row
    by_cases hk : k2 = k
    · simpa [deleteKey, hk] using ih
    · simpa [deleteKey, lookupKey, hk] using ih

theorem lookupKey_deleteKey_other {α : Type} (rows : List (String × α))
    {k k2 : String} (h : k2 ≠ k) :
    lookupKey (deleteKey rows k) k2 = lookupKey rows k2 := by
  induction rows with
  | nil => rfl
  | cons row rest ih =>
    obtain ⟨k3, v⟩ := row
    simp only [deleteKey, List.filter_cons]
    by_cases hk : k3 = k
    · have hne : ((k3, v).1 != k) = false := by simp [hk]
      have hk32 : k3 ≠ k2 := fun hc => h (hc ▸ hk)
      rw [hne]
      simp only [lookupKey, hk32, if_false]
      simpa [deleteKey] using ih
    · have hne : ((k3, v).1 != k) = true := by simp [hk]
      rw [hne]
      by_cases hk2 : k3 = k2
      · simp [lookupKey, hk2]
      · simp only [lookupKey, hk2, if_false]
        simpa [deleteKey] using ih

theorem lookupKey_map_update_self {α : Type} {rows : List (String × α)}
    {k : String} (v : α) (h : hasKey rows k = true) :
    lookupKey
      (rows.map (fun row => if row.1 = k then (k, v) else row)) k = some v := by
  induction rows with
  | nil => simp [hasKey, lookupKey] at h
  | cons row rest ih =>
    obtain ⟨k2, v2⟩ := row
    simp only [List.map_cons]
    by_cases hk : k2 = k
    · rw [if_pos (show (k2, v2).1 = k from hk)]
      simp [lookupKey]
    · rw [if_neg (show ¬(k2, v2).1 = k from hk)]
      have h2 : hasKey rest k = true := by
        simpa [hasKey, lookupKey, hk] using h
      simpa [lookupKey, hk] using ih h2

theorem lookupKey_map_update_other {α : Type} (rows : List (String × α))
    {k k2 : String} (v : α) (h : k2 ≠ k) :
    lookupKey (rows.map (fun row => if row.1 = k then (k, v) else row)) k2 =
      lookupKey rows k2 := by
  induction rows with
  | nil => rfl
  | cons row rest ih =>
    obtain ⟨k3, v3⟩ := row
    simp only [List.map_cons]
    by_cases hk : k3 = k
    · rw [if_pos (show (k3, v3).1 = k from hk)]
      have hkk2 : k ≠ k2 := fun hc => h hc.symm
      have hk32 : k3 ≠ k2 := hk ▸ hkk2
      simp only [lookupKey, hkk2, hk32, if_false]
      exact ih
    · rw [if_neg (show ¬(k3, v3).1 = k from hk)]
      by_cases hk2 : k3 = k2
      · simp [lookupKey, hk2]
      · simp only [lookupKey, hk2, if_false]
        exact ih

theorem lookupKey_append_single_other {α : Type} (rows : List (String × α))
    {k k2 : String} (v : α) (h : k2 ≠ k) :
    lookupKey (rows ++ [(k, v)]) k2 = lookupKey rows k2 := by
  induction rows with
  | nil => simp [lookupKey, Ne.symm h]
  | cons row rest ih =>
    obtain ⟨k3, v3⟩ := row
    by_cases hk3 : k3 = k2
    · simp [lookupKey, hk3]
    · simpa [lookupKey, hk3] using ih

theorem lookupKey_upsertUpdate_self {α : Type} (rows : List (String × α))
    (k : String) (v : α) : lookupKey (upsertUpdate rows k v) k = some v := by
  unfold upsertUpdate
  by_cases h : hasKey rows k = true
  · simpa [h] using lookupKey_map_update_self v h
  · have hn : lookupKey rows k = none :=
      hasKey_eq_false_iff.mp (by simpa using h)
    simp [h, lookupKey_append_of_none hn, lookupKey]

theorem lookupKey_upsertUpdate_other {α : Type} (rows : List (String × α))
    {k k2 : String} (v : α) (h : k2 ≠ k) :
    lookupKey (upsertUpdate rows k v) k2 = lookupKey rows k2 := by
  unfold upsertUpdate
  by_cases hk : hasKey rows k = true
  · simpa [hk] using lookupKey_map_update_other rows v h
  · simp only [hk, if_false]
    exact lookupKey_append_single_other rows v h

theorem hasKey_filter_iff {α : Type} {rows : List (String × α)} {k : String} :
    hasKey rows k = false ↔ rows.filter (fun row => row.1 == k) = [] := by
  induction rows with
  | nil => simp [hasKey, lookupKey]
  | cons row rest ih =>
    obtain ⟨k2, v⟩ := row
    simp only [List.filter_cons]
    by_cases hk : k2 = k
    · have hb : ((k2, v).1 == k) = true := by simp [hk]
      rw [hb]
      simp [hasKey, lookupKey, hk]
    · have hb : ((k2, v).1 == k) = false := by simp [hk]
      rw [hb]
      simpa [hasKey, lookupKey, hk] using ih

/-! ### Transaction lemmas -/

theorem runStmts_some {steps : List (DBState → DBState)} {failAt : Option Nat}
    {idx : Nat} {st st2 : DBState}
    (h : runStmts failAt steps idx st = some st2) :
    st2 = steps.foldl (fun s f => f s) st := by
  induction steps generalizing idx st with
  | nil => simpa [runStmts] using h.symm
  | cons f rest ih =>
    simp only [runStmts] at h
    split at h
    · exact absurd h (by simp)
    · simpa using ih h

theorem runStmts_fail {steps : List (DBState → DBState)} {i idx : Nat}
    {st : DBState} (h1 : idx ≤ i) (h2 : i < idx + steps.length) :
    runStmts (some i) steps idx st = none := by
  induction steps generalizing idx st with
  | nil => simp at h2; omega
  | cons f rest ih =>
    simp only [runStmts]
    by_cases hi : i = idx
    · simp [hi]
    · have h1' : idx + 1 ≤ i := by omega
      have h2' : i < (idx + 1) + rest.length := by
        simp at h2; omega
      simp only [Option.some.injEq, hi, Ne.symm hi, if_false, ite_false]
      exact ih h1' h2'

theorem runTx_fail {st : DBState} {steps : List (DBState → DBState)} {i : Nat}
    (h : i < steps.length) :
    runTx st steps (some i) = (some "transaction aborted", st) := by
  unfold runTx
  rw [runStmts_fail (Nat.zero_le i) (by omega)]

theorem runTx_ok {st : DBState} {steps : List (DBState → DBState)}
    {failAt : Option Nat} (h : (runTx st steps failAt).1 = none) :
    runTx st steps failAt = (none, steps.foldl (fun s f => f s) st) := by
  unfold runTx at h ⊢
  cases hr : runStmts failAt steps 0 st with
  | none => simp [hr] at h
  | some st2 =>
    simp only [hr] at h ⊢
    by_cases hc : failAt = some steps.length
    · simp [hc] at h
    · simp [hc, runStmts_some hr]

/-! ### Kind-list lemmas -/

theorem mem_insertKind_self (rows : List Int) (k : Int) :
    k ∈ insertKind rows k := by
  unfold insertKind
  split
  · assumption
  · simp

theorem not_mem_deleteKind_self (rows : List Int) (k : Int) :
    k ∉ deleteKind rows k := by
  intro hmem
  simp [deleteKind, List.mem_filter] at hmem

/-- After one successful `AllowKind k` or `DisallowKind k`, exactly one of
the two kind lists contains `k`. -/
theorem applyKindOp_exclusive (k : Int) (st : DBState) (op : KindOp) :
    (k ∈ (applyKindOp k st op).allowed_kinds ↔
      k ∉ (applyKindOp k st op).disallowed_kinds) := by
  cases op with
  | allow =>
    simp [applyKindOp, AllowKind, runTx, runStmts, mem_insertKind_self,
      not_mem_deleteKind_self]
  | disallow =>
    simp [applyKindOp, DisallowKind, runTx, runStmts, mem_insertKind_self,
      not_mem_deleteKind_self]

/-- After any non-empty sequence of `AllowKind k` / `DisallowKind k` calls,
exactly one of the two kind lists contains `k`. -/
theorem foldl_applyKindOp_exclusive (k : Int) (ops : List KindOp)
    (st : DBState) (h : ops ≠ []) :
    (k ∈ (ops.foldl (applyKindOp k) st).allowed_kinds ↔
      k ∉ (ops.foldl (applyKindOp k) st).disallowed_kinds) := by
  induction ops generalizing st with
  | nil => exact absurd rfl h
  | cons op rest ih =>
    by_cases hr : rest = []
    · subst hr
      simpa [List.foldl] using applyKindOp_exclusive k st op
    · simpa [List.foldl] using ih (applyKindOp k st op) hr

/-! ### Claims -/

/-- Claim C1: for every non-empty event id and reason, after a successful
`AllowEvent` the id is in `allowed_events` with that reason, and in neither
`events_needing_moderation` nor `banned_events`; symmetrically, after a
successful `BanEvent` the id is in `banned_events` with that reason, and in
neither `events_needing_moderation` nor `allowed_events`. -/
theorem allowEvent_banEvent_adjudication (st : DBState) (id reason : String)
    (failAt failAt2 : Option Nat) :
    ((AllowEvent st id reason failAt).1 = none →
      lookupKey (AllowEvent st id reason failAt).2.allowed_events id
          = some reason ∧
      hasKey (AllowEvent st id reason failAt).2.events_needing_moderation id
          = false ∧
      hasKey (AllowEvent st id reason failAt).2.banned_events id = false) ∧
    ((BanEvent st id reason failAt2).1 = none →
      lookupKey (BanEvent st id reason failAt2).2.banned_events id
          = some reason ∧
      hasKey (BanEvent st id reason failAt2).2.events_needing_moderation id
          = false ∧
      hasKey (BanEvent st id reason failAt2).2.allowed_events id = false) := by
  constructor
  · intro h
    unfold AllowEvent at h ⊢
    by_cases hid : id = ""
    · simp [hid] at h
    · simp only [hid, if_false] at h ⊢
      rw [runTx_ok h]
      simp [List.foldl, lookupKey_upsertUpdate_self, hasKey_eq_false_iff,
        lookupKey_deleteKey_self]
  · intro h
    unfold BanEvent at h ⊢
    by_cases hid : id = ""
    · simp [hid] at h
    · simp only [hid, if_false] at h ⊢
      rw [runTx_ok h]
      simp [List.foldl, lookupKey_upsertUpdate_self, hasKey_eq_false_iff,
        lookupKey_deleteKey_self]

theorem allowEvent_banEvent_adjudication_witness :
    lookupKey (AllowEvent initState "e1" "ok" none).2.allowed_events "e1"
        = some "ok" ∧
    hasKey (BanEvent initState "e2" "bad" none).2.allowed_events "e2"
        = false :=
  ⟨((allowEvent_banEvent_adjudication initState "e1" "ok" none none).1
      (by decide)).1,
   ((allowEvent_banEvent_adjudication initState "e2" "bad" none none).2
      (by decide)).2.2⟩

/-- Claim C2: `AllowEvent` and `BanEvent` are atomic over their three
statements — if any of the three statements fails, the operation returns an
error and the whole state (in particular all three event relations) is
exactly as before the call. -/
theorem allowEvent_banEvent_atomic (st : DBState) (id reason : String)
    (i : Nat) (h : i < 3) :
    (AllowEvent st id reason (some i)).1.isSome = true ∧
    (AllowEvent st id reason (some i)).2 = st ∧
    (BanEvent st id reason (some i)).1.isSome = true ∧
    (BanEvent st id reason (some i)).2 = st := by
  unfold AllowEvent BanEvent
  by_cases hid : id = ""
  · simp [hid]
  · simp only [hid, if_false]
    rw [runTx_fail (by simpa using h), runTx_fail (by simpa using h)]
    simp

theorem allowEvent_banEvent_atomic_witness :
    (AllowEvent initState "e" "r" (some 0)).1.isSome = true ∧
    (AllowEvent initState "e" "r" (some 0)).2 = initState ∧
    (BanEvent initState "e" "r" (some 0)).1.isSome = true ∧
    (BanEvent initState "e" "r" (some 0)).2 = initState :=
  allowEvent_banEvent_atomic initState "e" "r" 0 (by decide)

/-- Claim C3: after a successful `AllowKind k`, `k` is in `allowed_kinds`
and not in `disallowed_kinds`; symmetrically for `DisallowKind`; and after
any non-empty sequence of such calls, `k` is in exactly one of the two
lists — never both and never neither. -/
theorem allowKind_disallowKind_exclusive (st : DBState) (k : Int)
    (failAt failAt2 : Option Nat) (ops : List KindOp) :
    ((AllowKind st k failAt).1 = none →
      k ∈ (AllowKind st k failAt).2.allowed_kinds ∧
      k ∉ (AllowKind st k failAt).2.disallowed_kinds) ∧
    ((DisallowKind st k failAt2).1 = none →
      k ∈ (DisallowKind st k failAt2).2.disallowed_kinds ∧
      k ∉ (DisallowKind st k failAt2).2.allowed_kinds) ∧
    (ops ≠ [] →
      (k ∈ (ops.foldl (applyKindOp k) st).allowed_kinds ↔
        k ∉ (ops.foldl (applyKindOp k) st).disallowed_kinds)) := by
  refine ⟨?_, ?_, foldl_applyKindOp_exclusive k ops st⟩
  · intro h
    unfold AllowKind at h ⊢
    rw [runTx_ok h]
    simp [List.foldl, mem_insertKind_self, not_mem_deleteKind_self]
  · intro h
    unfold DisallowKind at h ⊢
    rw [runTx_ok h]
    simp [List.foldl, mem_insertKind_self, not_mem_deleteKind_self]

theorem allowKind_disallowKind_exclusive_witness :
    (1 : Int) ∈ (AllowKind initState 1 none).2.allowed_kinds ∧
    ((1 : Int) ∈
        ([KindOp.allow, KindOp.disallow].foldl (applyKindOp 1)
          initState).allowed_kinds ↔
      (1 : Int) ∉
        ([KindOp.allow, KindOp.disallow].foldl (applyKindOp 1)
          initState).disallowed_kinds) :=
  ⟨((allowKind_disallowKind_exclusive initState 1 none none []).1
      (by decide)).1,
   (allowKind_disallowKind_exclusive initState 1 none none
      [KindOp.allow, KindOp.disallow]).2.2 (by decide)⟩

/-! ### Admin-table invariant lemmas -/

theorem lookupKey_eq_none_iff {α : Type} {rows : List (String × α)}
    {k : String} : lookupKey rows k = none ↔ ∀ row ∈ rows, row.1 ≠ k := by
  induction rows with
  | nil => simp [lookupKey]
  | cons row rest ih =>
    obtain ⟨k2, v⟩ := row
    by_cases hk : k2 = k
    · simp [lookupKey, hk]
    · simpa [lookupKey, hk] using ih

theorem deleteKey_eq_self {α : Type} {rows : List (String × α)} {k : String}
    (h : lookupKey rows k = none) : deleteKey rows k = rows := by
  unfold deleteKey
  refine List.filter_eq_self.mpr (fun row hrow => ?_)
  simpa using lookupKey_eq_none_iff.mp h row hrow

theorem all_nonempty_deleteKey {rows : List (String × List String)}
    {k : String} (h : rows.all (fun row => !row.2.isEmpty) = true) :
    (deleteKey rows k).all (fun row => !row.2.isEmpty) = true := by
  rw [List.all_eq_true] at h ⊢
  intro row hrow
  exact h row (List.mem_of_mem_filter hrow)

theorem all_nonempty_mapUpdate {rows : List (String × List String)}
    {k : String} {ms : List String}
    (h : rows.all (fun row => !row.2.isEmpty) = true) (hms : ms ≠ []) :
    (rows.map (fun row => if row.1 = k then (k, ms) else row)).all
      (fun row => !row.2.isEmpty) = true := by
  rw [List.all_eq_true] at h ⊢
  intro row hrow
  rw [List.mem_map] at hrow
  obtain ⟨row0, hrow0, heq⟩ := hrow
  by_cases h0 : row0.1 = k
  · rw [if_pos h0] at heq
    subst heq
    simpa [List.isEmpty_iff] using hms
  · rw [if_neg h0] at heq
    subst heq
    exact h row0 hrow0

theorem all_nonempty_upsertUpdate {rows : List (String × List String)}
    {k : String} {ms : List String}
    (h : rows.all (fun row => !row.2.isEmpty) = true) (hms : ms ≠ []) :
    (upsertUpdate rows k ms).all (fun row => !row.2.isEmpty) = true := by
  unfold upsertUpdate
  by_cases hk : hasKey rows k = true
  · simpa [hk] using all_nonempty_mapUpdate h hms
  · simp only [hk, if_false]
    rw [List.all_eq_true] at h ⊢
    intro row hrow
    rcases List.mem_append.mp hrow with h1 | h2
    · exact h row h1
    · have h3 : row = (k, ms) := by simpa using h2
      subst h3
      simpa [List.isEmpty_iff] using hms

/-- One admin-management call whose grants carry non-empty method lists
keeps every grant row's method set non-empty. -/
theorem applyAdminOp_nonempty (st : DBState) (op : AdminOp)
    (hst : adminsNonempty st = true) (hop : grantNonempty op = true) :
    adminsNonempty (applyAdminOp st op) = true := by
  cases op with
  | grant pk ms =>
    have hms : ms ≠ [] := by
      simpa [grantNonempty, List.isEmpty_iff] using hop
    unfold applyAdminOp GrantAdmin
    by_cases hpk : pk = ""
    · simpa [hpk] using hst
    · simp only [hpk, if_false]
      unfold adminsNonempty at hst ⊢
      exact all_nonempty_upsertUpdate hst hms
  | revoke pk ms =>
    unfold applyAdminOp RevokeAdmin
    by_cases hpk : pk = ""
    · simpa [hpk] using hst
    · simp only [hpk, if_false]
      by_cases hms : ms = []
      · simp only [hms, if_pos trivial, if_true]
        unfold adminsNonempty at hst ⊢
        exact all_nonempty_deleteKey hst
      · simp only [hms, if_false]
        cases hcur : lookupKey st.admins pk with
        | none => simpa using hst
        | some cur =>
          simp only []
          by_cases hnew : cur.dedup.filter (fun m => !(ms.contains m)) = []
          · simp only [hnew, if_pos trivial]
            unfold adminsNonempty at hst ⊢
            simpa using all_nonempty_deleteKey hst
          · simp only [hnew, if_false]
            unfold adminsNonempty at hst ⊢
            simpa using all_nonempty_mapUpdate hst hnew

/-- Full-sequence form of `applyAdminOp_nonempty`. -/
theorem foldl_applyAdminOp_nonempty (ops : List AdminOp) :
    ∀ st : DBState, adminsNonempty st = true →
      ops.all grantNonempty = true →
      adminsNonempty (ops.foldl applyAdminOp st) = true := by
  induction ops with
  | nil =>
    intro st hst _
    simpa using hst
  | cons op rest ih =>
    intro st hst hops
    simp only [List.all_cons, Bool.and_eq_true] at hops
    simpa [List.foldl] using
      ih (applyAdminOp st op) (applyAdminOp_nonempty st op hst hops.1) hops.2

/-- Claim C5: `AddAllowedPubkey` fails on an empty pubkey; on a pubkey that
is already allowed it succeeds and changes nothing (the stored reason in
particular); whereas `BanPubKey` on an already banned pubkey succeeds and
replaces the stored reason with the new one. -/
theorem addAllowedPubkey_banPubKey_asymmetry (st : DBState)
    (id r r2 : String) :
    (AddAllowedPubkey st "" r).1 = some "pubkey cannot be empty" ∧
    (id ≠ "" → hasKey st.allowed_pubkeys id = true →
      AddAllowedPubkey st id r = (none, st)) ∧
    (id ≠ "" → hasKey st.banned_pubkeys id = true →
      (BanPubKey st id r2).1 = none ∧
      lookupKey (BanPubKey st id r2).2.banned_pubkeys id = some r2) := by
  refine ⟨by simp [AddAllowedPubkey], ?_, ?_⟩
  · intro hid hk
    simp [AddAllowedPubkey, hid, upsertIgnore, hk]
  · intro hid hk
    simp [BanPubKey, hid, lookupKey_upsertUpdate_self]

theorem addAllowedPubkey_banPubKey_asymmetry_witness :
    AddAllowedPubkey
        ⟨[("a", "r1")], [("a", "rb")], [], [], [], [], [], [], [], []⟩ "a" "r9"
      = (none, ⟨[("a", "r1")], [("a", "rb")], [], [], [], [], [], [], [], []⟩) ∧
    lookupKey
        (BanPubKey
          ⟨[("a", "r1")], [("a", "rb")], [], [], [], [], [], [], [], []⟩
          "a" "new").2.banned_pubkeys "a" = some "new" :=
  ⟨(addAllowedPubkey_banPubKey_asymmetry _ "a" "r9" "new").2.1
      (by decide) (by decide),
   ((addAllowedPubkey_banPubKey_asymmetry _ "a" "r9" "new").2.2
      (by decide) (by decide)).2⟩

/-- Claim C6: `RemoveAllowedPubkey` fails with the invalid-argument error on
an empty pubkey, fails with the not-found error on a non-empty pubkey with
no row, and succeeds exactly when a row existed — which is then deleted. -/
theorem removeAllowedPubkey_contract (st : DBState) (id : String) :
    (RemoveAllowedPubkey st "").1 = some "pubkey cannot be empty" ∧
    (id ≠ "" → hasKey st.allowed_pubkeys id = false →
      (RemoveAllowedPubkey st id).1
          = some ("pubkey " ++ id ++ " not found in allowed list")) ∧
    (id ≠ "" → hasKey st.allowed_pubkeys id = true →
      (RemoveAllowedPubkey st id).1 = none ∧
      hasKey (RemoveAllowedPubkey st id).2.allowed_pubkeys id = false) := by
  refine ⟨by simp [RemoveAllowedPubkey], ?_, ?_⟩
  · intro hid hk
    have hfil : st.allowed_pubkeys.filter (fun row => row.1 == id) = [] :=
      hasKey_filter_iff.mp hk
    simp [RemoveAllowedPubkey, hid, hfil]
  · intro hid hk
    have hne : st.allowed_pubkeys.filter (fun row => row.1 == id) ≠ [] := by
      intro hc
      have hfalse := hasKey_filter_iff.mpr hc
      rw [hk] at hfalse
      exact Bool.noConfusion hfalse
    have hlen :
        (st.allowed_pubkeys.filter (fun row => row.1 == id)).length ≠ 0 := by
      simpa [List.length_eq_zero] using hne
    refine ⟨?_, ?_⟩ <;>
      simp [RemoveAllowedPubkey, hid, hlen, hasKey_eq_false_iff,
        lookupKey_deleteKey_self]

theorem removeAllowedPubkey_contract_witness :
    (RemoveAllowedPubkey
        ⟨[("a", "r")], [], [], [], [], [], [], [], [], []⟩ "b").1
      = some ("pubkey " ++ "b" ++ " not found in allowed list") ∧
    (RemoveAllowedPubkey
        ⟨[("a", "r")], [], [], [], [], [], [], [], [], []⟩ "a").1 = none :=
  ⟨(removeAllowedPubkey_contract _ "b").2.1 (by decide) (by decide),
   ((removeAllowedPubkey_contract _ "a").2.2 (by decide) (by decide)).1⟩

/-- Claim C7: `UnblockIP` with a non-nil address always succeeds — even when
no row for that address exists — and removes only that address's row: every
other blocked address keeps its membership. -/
theorem unblockIP_lenient (st : DBState) (a b : String) :
    (UnblockIP st (some a)).1 = none ∧
    hasKey (UnblockIP st (some a)).2.blocked_ips a = false ∧
    (b ≠ a →
      hasKey (UnblockIP st (some a)).2.blocked_ips b
        = hasKey st.blocked_ips b) := by
  refine ⟨rfl, ?_, ?_⟩
  · simp [UnblockIP, hasKey_eq_false_iff, lookupKey_deleteKey_self]
  · intro hb
    simp [UnblockIP, hasKey, lookupKey_deleteKey_other st.blocked_ips hb]

theorem unblockIP_lenient_witness :
    (UnblockIP (BlockIP initState (some "203.0.113.5") "abuse").2
        (some "203.0.113.9")).1 = none ∧
    hasKey (UnblockIP (BlockIP initState (some "203.0.113.5") "abuse").2
        (some "203.0.113.9")).2.blocked_ips "203.0.113.5" = true :=
  ⟨(unblockIP_lenient _ "203.0.113.9" "203.0.113.5").1,
   by
     rw [(unblockIP_lenient (BlockIP initState (some "203.0.113.5") "abuse").2
       "203.0.113.9" "203.0.113.5").2.2 (by decide)]
     decide⟩

/-- Claim C9: for a non-empty pubkey, `GrantAdmin` followed by
`GetAdminMethods` returns exactly the supplied method list (so in
particular a set equal to it, order- and duplicate-insensitively), whatever
method set the pubkey had before: the previous set is fully replaced. -/
theorem grantAdmin_getAdminMethods_roundTrip (st : DBState) (id : String)
    (ms : List String) (h : id ≠ "") :
    (GrantAdmin st id ms).1 = none ∧
    GetAdminMethods (GrantAdmin st id ms).2 id = some ms ∧
    (∀ m, m ∈ (GetAdminMethods (GrantAdmin st id ms).2 id).getD [] ↔
      m ∈ ms) := by
  have hlook : lookupKey (upsertUpdate st.admins id ms) id = some ms :=
    lookupKey_upsertUpdate_self st.admins id ms
  refine ⟨by simp [GrantAdmin, h], ?_, ?_⟩
  · simp [GrantAdmin, GetAdminMethods, h, hlook]
  · intro m
    simp [GrantAdmin, GetAdminMethods, h, hlook]

theorem grantAdmin_getAdminMethods_roundTrip_witness :
    GetAdminMethods (GrantAdmin (GrantAdmin initState "a" ["old"]).2
        "a" ["x", "y"]).2 "a" = some ["x", "y"] :=
  (grantAdmin_getAdminMethods_roundTrip (GrantAdmin initState "a" ["old"]).2
    "a" ["x", "y"] (by decide)).2.1

/-- Claim C4 counterexample: one `GrantAdmin` call with an empty method
list succeeds and leaves a grant row whose method set is empty, so the
stated invariant fails on the code as written. -/
theorem adminGrant_emptyMethods_reachable :
    ([AdminOp.grant "a" []].foldl applyAdminOp initState).admins
        = [("a", [])] ∧
    adminsNonempty ([AdminOp.grant "a" []].foldl applyAdminOp initState)
        = false := by
  decide

/-- Claim C4 (amended): provided every `GrantAdmin` call carries a
non-empty method list, after any sequence of `GrantAdmin` / `RevokeAdmin`
calls starting from a fresh database every existing grant row has a
non-empty method set. -/
theorem adminGrant_methodSet_nonempty (ops : List AdminOp)
    (hops : ops.all grantNonempty = true) :
    adminsNonempty (ops.foldl applyAdminOp initState) = true :=
  foldl_applyAdminOp_nonempty ops initState rfl hops

theorem adminGrant_methodSet_nonempty_witness :
    ([AdminOp.grant "a" ["x", "y"], AdminOp.revoke "a" ["x"]].all
        grantNonempty = true) ∧
    adminsNonempty
        ([AdminOp.grant "a" ["x", "y"], AdminOp.revoke "a" ["x"]].foldl
          applyAdminOp initState) = true :=
  ⟨by decide, adminGrant_methodSet_nonempty _ (by decide)⟩

/-- Claim C8 counterexample: `RevokeAdmin` on the empty pubkey — for which
no grant row exists — returns an error instead of succeeding as a silent
no-op, so the claim as stated fails for `id = ""`. -/
theorem revokeAdmin_emptyPubkey_errors :
    lookupKey initState.admins "" = none ∧
    (RevokeAdmin initState "" []).1 = some "pubkey cannot be empty" := by
  decide

/-- Claim C8 (amended): for every non-empty pubkey, `RevokeAdmin` always
succeeds; an empty method list deletes the grant row entirely; when no
grant exists the call is a no-op that changes nothing; and with a
non-empty method list it removes exactly the named methods from the
current set, deleting the row when the remaining set is empty and keeping
it (with exactly the remaining methods) otherwise. -/
theorem revokeAdmin_contract (st : DBState) (id : String)
    (methods : List String) (h : id ≠ "") :
    (RevokeAdmin st id methods).1 = none ∧
    (methods = [] →
      lookupKey (RevokeAdmin st id methods).2.admins id = none) ∧
    (lookupKey st.admins id = none → RevokeAdmin st id methods = (none, st)) ∧
    (∀ cur, methods ≠ [] → lookupKey st.admins id = some cur →
      ((∀ m, m ∈ (lookupKey (RevokeAdmin st id methods).2.admins id).getD []
          ↔ (m ∈ cur ∧ m ∉ methods)) ∧
       ((∀ m ∈ cur, m ∈ methods) →
          lookupKey (RevokeAdmin st id methods).2.admins id = none) ∧
       ((∃ m ∈ cur, m ∉ methods) →
          (lookupKey (RevokeAdmin st id methods).2.admins id).isSome
            = true))) := by
  refine ⟨?_, ?_, ?_, ?_⟩
  · unfold RevokeAdmin
    simp only [h, if_false]
    by_cases hms : methods = []
    · simp [hms]
    · simp only [hms, ite_false]
      cases hcur : lookupKey st.admins id with
      | none => simp
      | some cur =>
        simp only []
        split <;> rfl
  · intro hms
    subst hms
    unfold RevokeAdmin
    simp [h, lookupKey_deleteKey_self]
  · intro hcur
    unfold RevokeAdmin
    by_cases hms : methods = []
    · simp [h, hms, deleteKey_eq_self hcur]
    · simp [h, hms, hcur]
  · intro cur hms hcur
    unfold RevokeAdmin
    simp only [h, if_false, hms, ite_false, hcur, List.elem_eq_mem]
    by_cases hnew :
        cur.dedup.filter (fun m => !decide (m ∈ methods)) = []
    · rw [if_pos hnew]
      refine ⟨?_, fun _ => ?_, ?_⟩
      · intro m
        simp only [lookupKey_deleteKey_self, Option.getD_none,
          List.not_mem_nil, false_iff]
        rintro ⟨h1, h2⟩
        have h3 := List.filter_eq_nil_iff.mp hnew m (List.mem_dedup.mpr h1)
        simp at h3
        exact h2 h3
      · simpa using lookupKey_deleteKey_self st.admins id
      · rintro ⟨m, hm1, hm2⟩
        have h3 := List.filter_eq_nil_iff.mp hnew m (List.mem_dedup.mpr hm1)
        simp at h3
        exact absurd h3 hm2
    · rw [if_neg hnew]
      have hk : hasKey st.admins id = true := by simp [hasKey, hcur]
      have hlook :
          lookupKey
            (st.admins.map (fun row =>
              if row.1 = id then
                (id, cur.dedup.filter (fun m => !decide (m ∈ methods)))
              else row)) id
            = some (cur.dedup.filter (fun m => !decide (m ∈ methods))) :=
        lookupKey_map_update_self _ hk
      refine ⟨?_, ?_, ?_⟩
      · intro m
        simp [hlook, List.mem_filter, List.mem_dedup]
      · intro hall
        exfalso
        refine hnew (List.filter_eq_nil_iff.mpr (fun a ha => ?_))
        simp [hall a (List.mem_dedup.mp ha)]
      · intro _
        simp [hlook]

theorem revokeAdmin_contract_witness :
    lookupKey
        (RevokeAdmin (GrantAdmin initState "a" ["x"]).2 "a" []).2.admins "a"
      = none ∧
    RevokeAdmin initState "b" ["x"] = (none, initState) :=
  ⟨(revokeAdmin_contract (GrantAdmin initState "a" ["x"]).2 "a" []
      (by decide)).2.1 rfl,
   (revokeAdmin_contract initState "b" ["x"] (by decide)).2.2.1 (by decide)⟩

/-- Claim C10: `AddEventNeedingModeration`, `AllowEvent` and `BanEvent` all
fail on an empty event id, leaving every relation unchanged. -/
theorem emptyEventId_rejected (st : DBState) (reason : String)
    (failAt : Option Nat) :
    AddEventNeedingModeration st "" reason
        = (some "event id cannot be empty", st) ∧
    AllowEvent st "" reason failAt = (some "event id cannot be empty", st) ∧
    BanEvent st "" reason failAt = (some "event id cannot be empty", st) := by
  unfold AddEventNeedingModeration AllowEvent BanEvent
  simp
